import Mathlib

/-!
# Symptom-triage client (`src/script.js`): embedding and verified properties

The page script is embedded as pure functions over an explicit page state.

* A JavaScript string is a list of characters (`Str`).  The built-in string
  methods the script calls (`split`, `trim`, `join`, `toLowerCase`,
  `includes`) are given as list functions of the same name.
* A JavaScript number is a double (`Dbl`), with correctly rounded arithmetic
  and the shortest-decimal printing of template literals (`numberToString`).
* A result card is the markup assigned to its `innerHTML`; how a browser
  parses that markup is not modelled.
* The DOM elements the script reads and writes are fields of `Page`.
* Each handler takes the outcome of its network call as an argument and runs
  to completion; no other handler is interleaved between its `await`s.
-/

namespace Script

/-! ## Strings -/

/-- A JavaScript string, as the list of its characters. -/
abbrev Str := List Char

/-- The characters `String.prototype.trim` strips: ECMAScript WhiteSpace and
LineTerminator code points. -/
def isWhiteSpace (c : Char) : Bool :=
  c.toNat = 0x09 || c.toNat = 0x0A || c.toNat = 0x0B || c.toNat = 0x0C ||
  c.toNat = 0x0D || c.toNat = 0x20 || c.toNat = 0xA0 || c.toNat = 0x1680 ||
  (0x2000 ≤ c.toNat && c.toNat ≤ 0x200A) ||
  c.toNat = 0x2028 || c.toNat = 0x2029 || c.toNat = 0x202F ||
  c.toNat = 0x205F || c.toNat = 0x3000 || c.toNat = 0xFEFF

/-- The method `s.trim()`: white space removed from both ends. -/
def trim (s : Str) : Str :=
  ((s.dropWhile isWhiteSpace).reverse.dropWhile isWhiteSpace).reverse

/-- The method `s.split(sep)` for a one-character separator: the pieces between the
occurrences of `sep`; a string without `sep` (the empty one too) is one piece. -/
def split (sep : Char) : Str → List Str
  | [] => [[]]
  | c :: cs =>
    if c = sep then [] :: split sep cs
    else
      match split sep cs with
      | [] => [[c]]
      | p :: ps => (c :: p) :: ps

/-- The method `xs.join(sep)`: the entries with `sep` between neighbours. -/
def join (sep : Str) : List Str → Str
  | [] => []
  | [x] => x
  | x :: y :: rest => x ++ sep ++ join sep (y :: rest)

/-- Lower case of one character.  Only `A`-`Z` change. -/
def lowerChar (c : Char) : Char :=
  if 65 ≤ c.toNat ∧ c.toNat ≤ 90 then Char.ofNat (c.toNat + 32) else c

/-- The method `s.toLowerCase()`, character by character.  Letters outside `A`-`Z` are
left as they are; the keywords `updateAnatomy` looks for are made of `a`-`z`,
and Unicode lower-casing yields such a letter from a non-ASCII character only
for `k` (Kelvin sign) and for `i` followed by a combining dot, neither of
which can complete one of those keywords. -/
def toLowerCase (s : Str) : Str := s.map lowerChar

/-- Whether `k` is an initial segment of `s`. -/
def startsWith : Str → Str → Bool
  | _, [] => true
  | [], _ :: _ => false
  | c :: s, d :: k => c == d && startsWith s k

/-- The method `s.includes(k)`: `k` occurs in `s` as a contiguous run. -/
def includes : Str → Str → Bool
  | [], k => startsWith [] k
  | c :: s, k => startsWith (c :: s) k || includes s k

/-! ## Numbers

A JavaScript number is a double.  A finite double is kept as the pair of
integers `num`, `exp` it equals `num * 2 ^ exp` for; arithmetic computes the
exact fraction and rounds it to 53 significant bits, to nearest, ties to even.
The exponent is not bounded: overflow to `Infinity` and subnormal numbers are
left out, and neither arises in line 72 for an integer probability of
magnitude below `1e300`. -/

/-- Number of binary digits of `n`, counted with `fuel` halvings at most. -/
def bitsAux : Nat → Nat → Nat
  | 0, _ => 0
  | fuel + 1, n => if n = 0 then 0 else bitsAux fuel (n / 2) + 1

/-- Number of binary digits of `n`. -/
def bits (n : Nat) : Nat := bitsAux n n

/-- A finite double, `num * 2 ^ exp`: zero is `0, 0`, any other value has
`2 ^ 52 ≤ |num| < 2 ^ 53`. -/
structure Dbl where
  num : Int
  exp : Int
  deriving DecidableEq, Repr

/-- The fraction `n / d` times `2 ^ k`, as numerator and denominator. -/
def scale2 (n d : Nat) (k : Int) : Nat × Nat :=
  if 0 ≤ k then (n * 2 ^ k.toNat, d) else (n, d * 2 ^ (-k).toNat)

/-- The integer nearest `n / d`, the even one when two are equally near. -/
def roundHalfEven (n d : Nat) : Nat :=
  let q := n / d
  let r := n % d
  if 2 * r < d then q else if d < 2 * r then q + 1 else if q % 2 = 0 then q else q + 1

/-- The double nearest the fraction `n / d`. -/
def roundToDouble (n : Int) (d : Nat) : Dbl :=
  if n = 0 ∨ d = 0 then ⟨0, 0⟩
  else
    let a := n.natAbs
    let k0 : Int := 53 + (bits d : Int) - (bits a : Int)
    let k : Int := if (scale2 a d k0).2 * 2 ^ 53 ≤ (scale2 a d k0).1 then k0 - 1 else k0
    let m := roundHalfEven (scale2 a d k).1 (scale2 a d k).2
    let sign : Int := if n < 0 then -1 else 1
    if m = 2 ^ 53 then ⟨sign * 2 ^ 52, 1 - k⟩ else ⟨sign * m, -k⟩

/-- Numerator of the exact value of `x`. -/
def Dbl.numer (x : Dbl) : Int := if 0 ≤ x.exp then x.num * 2 ^ x.exp.toNat else x.num

/-- Denominator of the exact value of `x`, a power of two. -/
def Dbl.denom (x : Dbl) : Nat := if 0 ≤ x.exp then 1 else 2 ^ (-x.exp).toNat

/-- The exact value of `x`. -/
def Dbl.toRat (x : Dbl) : ℚ := (x.numer : ℚ) / (x.denom : ℚ)

/-- The absolute value of `x`. -/
def Dbl.abs (x : Dbl) : Dbl := ⟨x.num.natAbs, x.exp⟩

/-- The number an integer is held as. -/
def Dbl.ofInt (i : Int) : Dbl := roundToDouble i 1

/-- The sum `x + y` of two doubles. -/
def Dbl.add (x y : Dbl) : Dbl :=
  roundToDouble (x.numer * y.denom + y.numer * x.denom) (x.denom * y.denom)

/-- The quotient `x / y` of two doubles, for `y` other than zero. -/
def Dbl.div (x y : Dbl) : Dbl :=
  roundToDouble (x.numer * y.denom * y.numer.sign) (x.denom * y.numer.natAbs)

/-- The fraction `n / d` divided by `10 ^ t`, as numerator and denominator. -/
def scale10 (n d : Nat) (t : Int) : Nat × Nat :=
  if 0 ≤ t then (n, d * 10 ^ t.toNat) else (n * 10 ^ (-t).toNat, d)

/-- Number of decimal digits of `n`. -/
def decDigits (n : Nat) : Nat := (Nat.toDigits 10 n).length

/-- The least `j` from `j` on with `d ≤ n * 10 ^ j`, looked for `fuel` times. -/
def firstScale : Nat → Nat → Nat → Nat → Nat
  | 0, _, _, j => j
  | fuel + 1, n, d, j => if d ≤ n * 10 ^ j then j else firstScale fuel n d (j + 1)

/-- The `e` with `10 ^ (e - 1) ≤ n / d < 10 ^ e`, for positive `n` and `d`. -/
def decExponent (n d : Nat) : Int :=
  if d ≤ n then (decDigits (n / d) : Int) else 1 - (firstScale (decDigits d) n d 1 : Int)

/-- Whether the decimal `s * 10 ^ t` denotes the positive double `x`. -/
def readsBack (x : Dbl) (s : Nat) (t : Int) : Bool :=
  if 0 ≤ t then roundToDouble (s * 10 ^ t.toNat : Nat) 1 = x
  else roundToDouble (s : Nat) (10 ^ (-t).toNat) = x

/-- Among the decimals of `k` digits next to the positive double `x` of decimal
exponent `e`: one that denotes `x`, the nearer first; as digits `s` and
exponent `t`, for `s * 10 ^ t`. -/
def shortestWith (x : Dbl) (e : Int) (k : Nat) : Option (Nat × Int) :=
  let t : Int := e - k
  let v := scale10 x.numer.natAbs x.denom t
  let lo := v.1 / v.2
  let hi := lo + 1
  let near := if 2 * (v.1 % v.2) ≤ v.2 then lo else hi
  let far := if 2 * (v.1 % v.2) ≤ v.2 then hi else lo
  if readsBack x near t then some (near, t)
  else if readsBack x far t then some (far, t)
  else none

/-- The decimal with the fewest digits, from `k` digits on, that denotes `x`;
after `fuel` tries the truncation of `x` to `k` digits. -/
def shortestFrom : Nat → Dbl → Int → Nat → Nat × Int
  | 0, x, e, k =>
    ((scale10 x.numer.natAbs x.denom (e - k)).1 / (scale10 x.numer.natAbs x.denom (e - k)).2,
      e - k)
  | fuel + 1, x, e, k =>
    match shortestWith x e k with
    | some r => r
    | none => shortestFrom fuel x e (k + 1)

/-- Drop the zeros at the end of the digits `s`, `fuel` of them at most. -/
def stripZeros : Nat → Nat → Int → Nat × Int
  | 0, s, t => (s, t)
  | fuel + 1, s, t => if s ≠ 0 ∧ s % 10 = 0 then stripZeros fuel (s / 10) (t + 1) else (s, t)

/-- A run of `n` zeros. -/
def zeros (n : Nat) : Str := List.replicate n '0'

/-- The layout rules of `Number::toString` for the digits of a positive
number whose decimal point stands after `n` digits. -/
def formatDigits (digits : Str) (n : Int) : Str :=
  let k := digits.length
  if (k : Int) ≤ n ∧ n ≤ 21 then digits ++ zeros (n - k).toNat
  else if 0 < n ∧ n ≤ 21 then digits.take n.toNat ++ '.' :: digits.drop n.toNat
  else if -6 < n ∧ n ≤ 0 then '0' :: '.' :: zeros (-n).toNat ++ digits
  else
    let e := n - 1
    let es : Str := (if e < 0 then '-' else '+') :: Nat.toDigits 10 e.natAbs
    if k = 1 then digits ++ 'e' :: es
    else digits.take 1 ++ '.' :: digits.drop 1 ++ 'e' :: es

/-- The string a number turns into inside a template literal
(`Number::toString`): the shortest decimal that denotes it. -/
def numberToString (x : Dbl) : Str :=
  if x.num = 0 then ['0']
  else
    let e := decExponent x.numer.natAbs x.denom
    let r := shortestFrom 17 x.abs e 1
    let r := stripZeros 400 r.1 r.2
    let digits := Nat.toDigits 10 r.1
    let body := formatDigits digits ((digits.length : Int) + r.2)
    if x.num < 0 then '-' :: body else body

/-! ## Symptom parser (line 26) -/

/-- Line 26, `symptomsRaw.split(',').map(s => s.trim()).filter(s => s)`: a string is
truthy exactly when it is not empty. -/
def parseSymptoms (symptomsRaw : Str) : List Str :=
  ((split ',' symptomsRaw).map trim).filter (fun s => !s.isEmpty)


/-! ## Values received from the server -/

/-- The values `currentPatientId` takes: `null` (line 15), `undefined` (a
response without `patient_id`) or a string. -/
inductive PatientId
  | null
  | undefined
  | str (s : Str)
  deriving DecidableEq, Repr

/-- JavaScript truthiness: of these values only a non-empty string is truthy. -/
def PatientId.truthy : PatientId → Bool
  | .str s => !s.isEmpty
  | _ => false

/-- One entry of `data.results`.  `suggested_tests` is `none` when the entry
has no such property, in which case `item.suggested_tests.join` throws. -/
structure ResultItem where
  name : Str
  /-- An integer, held as a number. -/
  probability : Int
  explanation : Str
  suggested_tests : Option (List Str)
  deriving DecidableEq, Repr

/-- How the analyze call ends.  In `body`, `results` is `none` when the parsed
body has no `results` property (an error object, say). -/
inductive AnalyzeOutcome
  /-- The call of `fetch` rejects. -/
  | fetchRejected
  /-- The call of `response.json()` rejects. -/
  | jsonRejected
  /-- The body parses to `null`, so reading `data.patient_id` throws. -/
  | nullBody
  /-- The body parses to an object. -/
  | body (patient_id : PatientId) (results : Option (List ResultItem))
  deriving DecidableEq, Repr

/-- The object `data.roadmap`; a category is `none` when it is absent. -/
structure Roadmap where
  medication : Option (List Str)
  lifestyle : Option (List Str)
  monitoring : Option (List Str)
  deriving DecidableEq, Repr

/-- How the roadmap call ends.  In `body`, `roadmap` is `none` when the parsed
body has no `roadmap` property. -/
inductive RoadmapOutcome
  | fetchRejected
  | jsonRejected
  | nullBody
  | body (roadmap : Option Roadmap)
  deriving DecidableEq, Repr

/-! ## Page state -/

/-- A child of `#results-container`. -/
inductive Node
  /-- The paragraph of line 62, "No specific conditions matched. ...". -/
  | message
  /-- A `div` of class `result-card` with the markup assigned to its `innerHTML`. -/
  | card (innerHTML : Str)
  deriving DecidableEq

/-- What a handler does to the outside world, in order. -/
inductive Effect
  | fetchAnalyze (name age sex : Str) (symptoms : List Str)
  | fetchRoadmap (disease : Str) (patient_id : PatientId)
  | consoleError
  | alert (message : Str)
  | scrollIntoView
  | scrollTo (x y : Nat)
  deriving DecidableEq, Repr

/-- Whether a block of statements ran to its end or threw. -/
inductive Completion
  | normal
  | thrown
  deriving DecidableEq, Repr

/-- The variable `currentPatientId` and the elements the script touches. -/
structure Page where
  currentPatientId : PatientId
  /-- Values of `#p-name`, `#p-age`, `#p-sex`, `#p-symptoms`. -/
  pName : Str
  pAge : Str
  pSex : Str
  pSymptoms : Str
  /-- The button `#analyze-btn`. -/
  btnHtml : Str
  btnDisabled : Bool
  /-- Children of `#results-container`. -/
  resultsContainer : List Node
  /-- Whether `#results-area`, `#analysis-view`, `#roadmap-view` carry the class `hidden`. -/
  resultsAreaHidden : Bool
  analysisViewHidden : Bool
  roadmapViewHidden : Bool
  /-- Side panel: text of `#data-pts`, text and colour of `#sys-conf`. -/
  dataPts : Str
  sysConf : Str
  sysConfColor : Str
  /-- Fill of `.body-part.head` and of `.body-part.torso-limbs`. -/
  headFill : Str
  torsoFill : Str
  /-- Roadmap view: text of `#locked-disease`, the items of the three lists,
  text of `#roadmap-patient-summary`. -/
  lockedDisease : Str
  roadmapMeds : List Str
  roadmapLifestyle : List Str
  roadmapMonitoring : List Str
  roadmapPatientSummary : Str
  /-- Effects so far, oldest first. -/
  log : List Effect
  deriving DecidableEq

/-- The page right after line 15 ran: no patient id.  What the elements hold
at that point comes from the markup, which the script does not set; the
analysis view is taken visible, everything else empty. -/
def Page.blank : Page :=
  { currentPatientId := .null
    pName := [], pAge := [], pSex := [], pSymptoms := []
    btnHtml := "Analyze".toList, btnDisabled := false
    resultsContainer := [], resultsAreaHidden := true
    analysisViewHidden := false, roadmapViewHidden := true
    dataPts := [], sysConf := [], sysConfColor := []
    headFill := [], torsoFill := []
    lockedDisease := [], roadmapMeds := [], roadmapLifestyle := []
    roadmapMonitoring := [], roadmapPatientSummary := []
    log := [] }

/-- The two views of the page. -/
inductive View
  | Analysis
  | Roadmap
  deriving DecidableEq, Repr

/-- The view on display: the one of the two containers that is not hidden. -/
def view (st : Page) : Option View :=
  match st.analysisViewHidden, st.roadmapViewHidden with
  | false, true => some .Analysis
  | true, false => some .Roadmap
  | _, _ => none

/-- What the page shows apart from which view is up: result cards, side
panel, anatomy fills and roadmap content. -/
structure Rendered where
  resultsContainer : List Node
  resultsAreaHidden : Bool
  dataPts : Str
  sysConf : Str
  sysConfColor : Str
  headFill : Str
  torsoFill : Str
  lockedDisease : Str
  roadmapMeds : List Str
  roadmapLifestyle : List Str
  roadmapMonitoring : List Str
  roadmapPatientSummary : Str
  deriving DecidableEq

/-- The rendered content of a page. -/
def Page.rendered (st : Page) : Rendered :=
  { resultsContainer := st.resultsContainer
    resultsAreaHidden := st.resultsAreaHidden
    dataPts := st.dataPts, sysConf := st.sysConf, sysConfColor := st.sysConfColor
    headFill := st.headFill, torsoFill := st.torsoFill
    lockedDisease := st.lockedDisease
    roadmapMeds := st.roadmapMeds, roadmapLifestyle := st.roadmapLifestyle
    roadmapMonitoring := st.roadmapMonitoring
    roadmapPatientSummary := st.roadmapPatientSummary }

/-! ## Result renderer (lines 58-89) -/

/-- The expression `0.5 + (item.probability / 200)` of line 72. -/
def opacity (probability : Int) : Dbl :=
  Dbl.add (roundToDouble 1 2) (Dbl.div (Dbl.ofInt probability) (Dbl.ofInt 200))

/-- The template literal of lines 69-83 as a function of the strings its six
holes evaluate to, in order; the first and the last hole both hold
`item.name`.  The strings are inserted as they are, without escaping. -/
def template (name opacity probability explanation tests lockArg : Str) : Str :=
  "\n                <div class=\"result-header\">\n                    <div class=\"disease-name\">".toList
    ++ name ++
  "</div>\n                    <div class=\"prob-tag\" style=\"opacity: ".toList
    ++ opacity ++
  "\">".toList
    ++ probability ++
  "% Probable</div>\n                </div>\n                <div class=\"explanation\">\n                    <strong>Why?</strong> ".toList
    ++ explanation ++
  "\n                </div>\n                 <div class=\"explanation\">\n                    <strong>Suggested Tests:</strong> ".toList
    ++ tests ++
  "\n                </div>\n                <button class=\"lock-btn\" onclick=\"lockDisease('".toList
    ++ lockArg ++
  "')\">\n                    🔒 Select & Plan Care\n                </button>\n            ".toList

/-- The body of the `forEach` callback up to `appendChild`: the markup assigned
to `card.innerHTML`, or `none` when `item.suggested_tests.join` throws. -/
def renderCard (item : ResultItem) : Option Str :=
  match item.suggested_tests with
  | none => none
  | some tests =>
    some (template item.name (numberToString (opacity item.probability))
      (numberToString (Dbl.ofInt item.probability)) item.explanation
      (join ", ".toList tests) item.name)

/-- The loop `results.forEach(item => ...)`: a card is appended per item; a throw ends
the loop and keeps the cards appended so far. -/
def appendCards : List ResultItem → Page → Page × Completion
  | [], st => (st, .normal)
  | item :: rest, st =>
    match renderCard item with
    | none => (st, .thrown)
    | some c =>
      appendCards rest { st with resultsContainer := st.resultsContainer ++ [Node.card c] }

/-- The function `renderResults(results)`; `results` is `none` for `undefined`, where
`results.length` throws. -/
def renderResults (results : Option (List ResultItem)) (st : Page) : Page × Completion :=
  let st := { st with resultsContainer := [] }
  match results with
  | none => (st, .thrown)
  | some items =>
    let st := if items.length = 0 then { st with resultsContainer := [Node.message] } else st
    match appendCards items st with
    | (st, .thrown) => (st, .thrown)
    | (st, .normal) =>
      ({ st with resultsAreaHidden := false, log := st.log ++ [Effect.scrollIntoView] }, .normal)

/-! ## Side panel (lines 144-152) -/

/-- The function `updateSidePanel(results, symptomCount)`. -/
def updateSidePanel (results : List ResultItem) (symptomCount : Nat) (st : Page) : Page :=
  let st := { st with dataPts := (Nat.repr symptomCount).toList ++ " Symptoms".toList }
  match results with
  | first :: _ =>
    { st with
      sysConf := if first.probability > 40 then "Moderate".toList else "Low".toList
      sysConfColor :=
        if first.probability > 40 then "var(--primary-color)".toList
        else "var(--text-muted)".toList }
  | [] => { st with sysConf := "--".toList }

/-! ## Anatomy highlighter (lines 155-173) -/

/-- The fill `#e9ecef`. -/
def neutralFill : Str := "#e9ecef".toList
/-- The fill `#ffc107`. -/
def warningFill : Str := "#ffc107".toList
/-- The fill `#dc3545`. -/
def criticalFill : Str := "#dc3545".toList

/-- The function `updateAnatomy(symptoms)`: both fills are reset to neutral, then
the head rule and the torso rule run on the lowered joined string. -/
def updateAnatomy (symptoms : List Str) (st : Page) : Page :=
  let s := toLowerCase (join " ".toList symptoms)
  let st := { st with headFill := neutralFill }
  let st := { st with torsoFill := neutralFill }
  let st :=
    if includes s "head".toList || includes s "migraine".toList || includes s "vision".toList then
      let st := { st with headFill := warningFill }
      if includes s "severe".toList || includes s "blindness".toList then
        { st with headFill := criticalFill }
      else st
    else st
  if includes s "chest".toList || includes s "heart".toList || includes s "stomach".toList
      || includes s "abdominal".toList then
    let st := { st with torsoFill := warningFill }
    if includes s "pain".toList && includes s "chest".toList then
      { st with torsoFill := criticalFill }
    else st
  else st

/-! ## Roadmap renderer (lines 115-141) -/

/-- The three lists `fillList` is called on. -/
inductive ListId
  | roadmapMeds
  | roadmapLifestyle
  | roadmapMonitoring
  deriving DecidableEq, Repr

/-- The items of the list with the given id. -/
def Page.items (st : Page) : ListId → List Str
  | .roadmapMeds => st.roadmapMeds
  | .roadmapLifestyle => st.roadmapLifestyle
  | .roadmapMonitoring => st.roadmapMonitoring

/-- Replace the items of the list with the given id. -/
def Page.setItems (st : Page) (id : ListId) (lis : List Str) : Page :=
  match id with
  | .roadmapMeds => { st with roadmapMeds := lis }
  | .roadmapLifestyle => { st with roadmapLifestyle := lis }
  | .roadmapMonitoring => { st with roadmapMonitoring := lis }

/-- The text of the item of line 129. -/
def placeholder : Str := "No specific data available.".toList

/-- The function `fillList(id, items)`; `items` is `none` when the category is absent. -/
def fillList (id : ListId) (items : Option (List Str)) (st : Page) : Page :=
  let st := st.setItems id []
  match items with
  | some items => items.foldl (fun st i => st.setItems id (st.items id ++ [i])) st
  | none => st.setItems id [placeholder]

/-- The function `renderRoadmap(disease, roadmap)`; `roadmap` is `none` for `undefined`,
where `roadmap.medication` throws. -/
def renderRoadmap (disease : Str) (roadmap : Option Roadmap) (st : Page) : Page × Completion :=
  let st := { st with lockedDisease := disease }
  match roadmap with
  | none => (st, .thrown)
  | some roadmap =>
    let st := fillList .roadmapMeds roadmap.medication st
    let st := fillList .roadmapLifestyle roadmap.lifestyle st
    let st := fillList .roadmapMonitoring roadmap.monitoring st
    ({ st with roadmapPatientSummary := st.pName ++ ", ".toList ++ st.pAge ++ "y".toList },
      .normal)

/-! ## Handlers -/

/-- The `try` block of the submit handler (lines 35-46). -/
def analysisTry (outcome : AnalyzeOutcome) (symptoms : List Str) (st : Page) :
    Page × Completion :=
  let st := { st with log := st.log ++ [Effect.fetchAnalyze st.pName st.pAge st.pSex symptoms] }
  match outcome with
  | .fetchRejected => (st, .thrown)
  | .jsonRejected => (st, .thrown)
  | .nullBody => (st, .thrown)
  | .body patient_id results =>
    let st := { st with currentPatientId := patient_id }
    match renderResults results st with
    | (st, .thrown) => (st, .thrown)
    | (st, .normal) =>
      let st := updateSidePanel (results.getD []) symptoms.length st
      (updateAnatomy symptoms st, .normal)

/-- The submit handler of `#analysis-form` (lines 18-55). -/
def submitAnalysis (outcome : AnalyzeOutcome) (st : Page) : Page :=
  let symptoms := parseSymptoms st.pSymptoms
  let originalBtnText := st.btnHtml
  let st := { st with btnHtml := "Analyzing...".toList, btnDisabled := true }
  let st :=
    match analysisTry outcome symptoms st with
    | (st, .normal) => st
    | (st, .thrown) =>
      { st with log := st.log ++
          [Effect.consoleError, Effect.alert "An error occurred during analysis.".toList] }
  { st with btnHtml := originalBtnText, btnDisabled := false }

/-- The `try` block of `lockDisease` (lines 96-108). -/
def roadmapTry (diseaseName : Str) (outcome : RoadmapOutcome) (st : Page) : Page × Completion :=
  let st := { st with log := st.log ++ [Effect.fetchRoadmap diseaseName st.currentPatientId] }
  match outcome with
  | .fetchRejected => (st, .thrown)
  | .jsonRejected => (st, .thrown)
  | .nullBody => (st, .thrown)
  | .body roadmap =>
    match renderRoadmap diseaseName roadmap st with
    | (st, .thrown) => (st, .thrown)
    | (st, .normal) =>
      ({ st with analysisViewHidden := true, roadmapViewHidden := false
                 log := st.log ++ [Effect.scrollTo 0 0] }, .normal)

/-- The function `window.lockDisease` (lines 92-113).  A falsy patient id
returns at once; a throw in the `try` block is logged to the console. -/
def lockDisease (diseaseName : Str) (outcome : RoadmapOutcome) (st : Page) : Page :=
  if !st.currentPatientId.truthy then st
  else
    match roadmapTry diseaseName outcome st with
    | (st, .normal) => st
    | (st, .thrown) => { st with log := st.log ++ [Effect.consoleError] }

/-- The click handler of `#back-to-analysis` (lines 176-179). -/
def goBack (st : Page) : Page :=
  let st := { st with roadmapViewHidden := true }
  { st with analysisViewHidden := false }

/-- The events the page reacts to, each with the outcome of its network call. -/
inductive Event
  | submit (outcome : AnalyzeOutcome)
  | select (diseaseName : Str) (outcome : RoadmapOutcome)
  | back
  deriving DecidableEq, Repr

/-- One event handled. -/
def step (e : Event) (st : Page) : Page :=
  match e with
  | .submit outcome => submitAnalysis outcome st
  | .select diseaseName outcome => lockDisease diseaseName outcome st
  | .back => goBack st

/-! ## Predicates used to state the properties -/

/-- Neither the first nor the last character of `s` is white space. -/
def noEdgeSpace (s : Str) : Bool :=
  (s.head?.all fun c => !isWhiteSpace c) && (s.getLast?.all fun c => !isWhiteSpace c)

/-- A clean token: not empty, no white space at either end, no comma. -/
def isClean (s : Str) : Bool :=
  !s.isEmpty && noEdgeSpace s && !s.contains ','

/-- The base condition of the head on the lowered, joined string `s`. -/
def headBase (s : Str) : Bool :=
  includes s "head".toList || includes s "migraine".toList || includes s "vision".toList

/-- The escalation condition of the head. -/
def headEscalation (s : Str) : Bool :=
  includes s "severe".toList || includes s "blindness".toList

/-- The base condition of the torso. -/
def torsoBase (s : Str) : Bool :=
  includes s "chest".toList || includes s "heart".toList || includes s "stomach".toList
    || includes s "abdominal".toList

/-- The escalation condition of the torso. -/
def torsoEscalation (s : Str) : Bool :=
  includes s "pain".toList && includes s "chest".toList

/-- Whether the opacity computed for the probability `p` is within `2 ^ -53`
of `1 / 2 + p / 200`; both sides are multiplied by `200`, by the denominator
of the opacity and by `2 ^ 53`. -/
def opacityNear (p : Nat) : Bool :=
  decide ((200 * (opacity p).numer - (100 + (p : Int)) * (opacity p).denom).natAbs * 2 ^ 53
    ≤ 200 * (opacity p).denom)

/-- The markup of the cards `appendCards` appends: those of the items before the first one
whose rendering throws. -/
def cardsBeforeThrow : List ResultItem → List Str
  | [] => []
  | item :: rest =>
    match renderCard item with
    | none => []
    | some c => c :: cardsBeforeThrow rest

/-- Whether the `try` block of the submit handler throws, that is, whether the
analyze call fails. -/
def analysisFails (outcome : AnalyzeOutcome) (st : Page) : Bool :=
  (analysisTry outcome (parseSymptoms st.pSymptoms) st).2 == Completion.thrown

/-- Whether the `try` block of `lockDisease` throws, that is, whether the
roadmap call fails. -/
def roadmapFails (diseaseName : Str) (outcome : RoadmapOutcome) (st : Page) : Bool :=
  (roadmapTry diseaseName outcome st).2 == Completion.thrown

/-- A sample result: Migraine at 72 %. -/
def migraine : ResultItem :=
  { name := "Migraine".toList
    probability := 72
    explanation := "Matches headache with visual symptoms".toList
    suggested_tests := some ["MRI".toList, "Eye exam".toList] }

/-- A sample result: Flu at 14 %. -/
def flu : ResultItem :=
  { name := "Flu".toList
    probability := 14
    explanation := "Fever and cough".toList
    suggested_tests := some ["PCR".toList] }

/-- A sample roadmap with the medication category only. -/
def medicationOnly : Roadmap :=
  { medication := some ["Triptans".toList], lifestyle := none, monitoring := none }

/-- The blank page with the form filled in for Jane, 30, F. -/
def janePage : Page :=
  { Page.blank with
    pName := "Jane".toList, pAge := "30".toList, pSex := "F".toList
    pSymptoms := "severe headache, vision loss".toList }

/-- Jane's page after the analyze call returned patient `p1` and the Migraine result. -/
def janeAnalysed : Page :=
  submitAnalysis (.body (.str "p1".toList) (some [migraine])) janePage

/-- The trimmed form `t` of a piece `p`: `p` is `t` between two runs of white
space, and `t` has none at its ends. -/
def IsTrimOf (p t : Str) : Prop :=
  noEdgeSpace t = true ∧
    ∃ l r : Str, l.all isWhiteSpace = true ∧ r.all isWhiteSpace = true ∧ p = l ++ t ++ r

/-! ## Lemmas on strings -/

theorem split_ne_nil (sep : Char) (s : Str) : split sep s ≠ [] := by
  induction s with
  | nil => simp [split]
  | cons c cs ih =>
    unfold split
    split_ifs
    · simp
    · split <;> simp

theorem join_cons_head (sep : Str) (c : Char) (p : Str) (ps : List Str) :
    join sep ((c :: p) :: ps) = c :: join sep (p :: ps) := by
  cases ps <;> simp [join]

theorem join_cons_of_ne_nil (sep p : Str) (ps : List Str) (h : ps ≠ []) :
    join sep (p :: ps) = p ++ sep ++ join sep ps := by
  cases ps with
  | nil => exact absurd rfl h
  | cons q qs => simp [join]

theorem join_split (sep : Char) (s : Str) : join [sep] (split sep s) = s := by
  induction s with
  | nil => rfl
  | cons c cs ih =>
    unfold split
    split_ifs with h
    · rw [join_cons_of_ne_nil _ _ _ (split_ne_nil sep cs), ih]
      simp [h]
    · cases hs : split sep cs with
      | nil => exact absurd hs (split_ne_nil _ _)
      | cons p ps =>
        rw [hs] at ih
        simp only [join_cons_head, ih]

theorem not_mem_of_mem_split (sep : Char) (s p : Str) (hp : p ∈ split sep s) : sep ∉ p := by
  induction s generalizing p with
  | nil => simp [split] at hp; simp [hp]
  | cons c cs ih =>
    unfold split at hp
    split_ifs at hp with h
    · rcases List.mem_cons.1 hp with rfl | hp
      · simp
      · exact ih p hp
    · cases hs : split sep cs with
      | nil => exact absurd hs (split_ne_nil _ _)
      | cons q qs =>
        rw [hs] at hp ih
        simp only at hp
        rcases List.mem_cons.1 hp with rfl | hp
        · have := ih q (List.mem_cons_self _ _)
          simp [this, Ne.symm h]
        · exact ih p (List.mem_cons_of_mem _ hp)

theorem split_of_not_mem (sep : Char) (p : Str) (h : sep ∉ p) : split sep p = [p] := by
  induction p with
  | nil => rfl
  | cons c cs ih =>
    have hc : c ≠ sep := fun e => h (by simp [e])
    have hcs : sep ∉ cs := fun e => h (List.mem_cons_of_mem _ e)
    simp [split, hc, ih hcs]

theorem split_append_sep (sep : Char) (p rest : Str) (h : sep ∉ p) :
    split sep (p ++ sep :: rest) = p :: split sep rest := by
  induction p with
  | nil => simp [split]
  | cons c cs ih =>
    have hc : c ≠ sep := fun e => h (by simp [e])
    have hcs : sep ∉ cs := fun e => h (List.mem_cons_of_mem _ e)
    simp [split, hc, ih hcs]

theorem split_join (sep : Char) (L : List Str) (hL : L ≠ []) (h : ∀ p ∈ L, sep ∉ p) :
    split sep (join [sep] L) = L := by
  induction L with
  | nil => exact absurd rfl hL
  | cons p ps ih =>
    cases ps with
    | nil => simpa [join] using split_of_not_mem sep p (h p (List.mem_cons_self _ _))
    | cons q qs =>
      have hq := ih (by simp) (fun x hx => h x (List.mem_cons_of_mem _ hx))
      simp only [join, List.append_assoc, List.singleton_append]
      rw [split_append_sep sep p _ (h p (List.mem_cons_self _ _)), hq]

theorem trim_eq_rdropWhile (s : Str) :
    trim s = (s.dropWhile isWhiteSpace).rdropWhile isWhiteSpace := rfl

theorem noEdgeSpace_trim (s : Str) : noEdgeSpace (trim s) = true := by
  by_cases hnil : trim s = []
  · simp [hnil, noEdgeSpace]
  · obtain ⟨c, cs, hcs⟩ := List.exists_cons_of_ne_nil hnil
    have hpre : trim s <+: s.dropWhile isWhiteSpace := by
      rw [trim_eq_rdropWhile]; exact List.rdropWhile_prefix _ _
    obtain ⟨r, hr⟩ := hpre
    have hhead := List.head?_dropWhile_not isWhiteSpace s
    rw [← hr, hcs] at hhead
    simp only [List.cons_append, List.head?_cons] at hhead
    have hnil2 : (s.dropWhile isWhiteSpace).rdropWhile isWhiteSpace ≠ [] := by
      rw [← trim_eq_rdropWhile]; exact hnil
    have hlast := List.rdropWhile_last_not isWhiteSpace _ hnil2
    have hl : (trim s).getLast? = some (((s.dropWhile isWhiteSpace).rdropWhile isWhiteSpace).getLast hnil2) := by
      rw [trim_eq_rdropWhile]; exact List.getLast?_eq_getLast _ hnil2
    unfold noEdgeSpace
    rw [hl]
    rw [hcs]
    simpa [hhead] using hlast

theorem rdropWhile_append_rtakeWhile (p : Char → Bool) (l : Str) :
    l.rdropWhile p ++ l.rtakeWhile p = l := by
  simp only [List.rdropWhile, List.rtakeWhile, ← List.reverse_append,
    List.takeWhile_append_dropWhile, List.reverse_reverse]

theorem isTrimOf_trim (s : Str) : IsTrimOf s (trim s) := by
  refine ⟨noEdgeSpace_trim s, s.takeWhile isWhiteSpace,
    (s.dropWhile isWhiteSpace).rtakeWhile isWhiteSpace, ?_, ?_, ?_⟩
  · exact List.all_eq_true.2 fun x hx => List.mem_takeWhile_imp hx
  · exact List.all_eq_true.2 fun x hx => List.mem_rtakeWhile_imp hx
  · rw [trim_eq_rdropWhile, List.append_assoc, rdropWhile_append_rtakeWhile,
      List.takeWhile_append_dropWhile]

theorem trim_of_noEdgeSpace (s : Str) (h : noEdgeSpace s = true) : trim s = s := by
  unfold noEdgeSpace at h
  rw [Bool.and_eq_true] at h
  have h1 : s.dropWhile isWhiteSpace = s := by
    cases s with
    | nil => rfl
    | cons c cs => simp at h; simp [List.dropWhile, h.1]
  rw [trim_eq_rdropWhile, h1, List.rdropWhile_eq_self_iff]
  intro hl
  have := h.2
  rw [List.getLast?_eq_getLast _ hl] at this
  simpa using this

theorem mem_of_mem_trim (c : Char) (s : Str) (h : c ∈ trim s) : c ∈ s := by
  rw [trim_eq_rdropWhile] at h
  exact (List.dropWhile_suffix _).subset ((List.rdropWhile_prefix _ _).subset h)

theorem dropWhile_append_of_all (p : Char → Bool) (l m : Str)
    (hl : l.all p = true) (hm : ∀ c, m.head? = some c → p c = false) :
    (l ++ m).dropWhile p = m := by
  induction l with
  | nil =>
    cases m with
    | nil => rfl
    | cons c cs => simp [List.dropWhile, hm c rfl]
  | cons a as ih =>
    simp only [List.all_cons, Bool.and_eq_true] at hl
    simp [List.dropWhile, hl.1, ih hl.2]

theorem trim_of_isTrimOf (p t : Str) (h : IsTrimOf p t) : trim p = t := by
  obtain ⟨hedge, l, r, hl, hr, rfl⟩ := h
  unfold noEdgeSpace at hedge
  rw [Bool.and_eq_true] at hedge
  have h1 : (l ++ t ++ r).dropWhile isWhiteSpace = (t ++ r).dropWhile isWhiteSpace := by
    cases t with
    | nil =>
      have hall : ∀ x ∈ l ++ r, isWhiteSpace x = true := by
        intro x hx
        rcases List.mem_append.1 hx with hx | hx
        · exact List.all_eq_true.1 hl x hx
        · exact List.all_eq_true.1 hr x hx
      have e1 : (l ++ r).dropWhile isWhiteSpace = [] := by simpa using hall
      have e2 : r.dropWhile isWhiteSpace = [] := by
        simpa using fun x hx => List.all_eq_true.1 hr x hx
      simp [e1, e2]
    | cons c cs =>
      have hc : isWhiteSpace c = false := by simpa using hedge.1
      rw [List.append_assoc, dropWhile_append_of_all _ l _ hl (by simp [hc])]
      simp [List.dropWhile, hc]
  have h2 : ((t ++ r).dropWhile isWhiteSpace).rdropWhile isWhiteSpace = t := by
    cases t with
    | nil =>
      have e2 : r.dropWhile isWhiteSpace = [] := by
        simpa using fun x hx => List.all_eq_true.1 hr x hx
      simp [e2]
    | cons c cs =>
      have hc : isWhiteSpace c = false := by simpa using hedge.1
      have e3 : (c :: cs ++ r).dropWhile isWhiteSpace = c :: cs ++ r := by
        simp [List.dropWhile, hc]
      rw [e3]
      unfold List.rdropWhile
      rw [List.reverse_append, dropWhile_append_of_all _ _ _ (by simpa using hr)]
      · simp
      · intro x hx
        rw [List.head?_reverse] at hx
        have := hedge.2
        rw [hx] at this
        simpa using this
  rw [trim_eq_rdropWhile, h1, h2]

theorem map_trim_of_forall₂ (pieces trimmed : List Str)
    (h : List.Forall₂ IsTrimOf pieces trimmed) : pieces.map trim = trimmed := by
  induction h with
  | nil => rfl
  | cons hpt _ ih => rw [List.map_cons, ih, trim_of_isTrimOf _ _ hpt]

theorem isClean_iff (t : Str) :
    isClean t = true ↔ t ≠ [] ∧ noEdgeSpace t = true ∧ ',' ∉ t := by
  cases t <;> simp [isClean, and_assoc]

theorem isClean_of_mem_parseSymptoms (raw t : Str) (h : t ∈ parseSymptoms raw) :
    isClean t = true := by
  unfold parseSymptoms at h
  rw [List.mem_filter, List.mem_map] at h
  obtain ⟨⟨p, hp, rfl⟩, hne⟩ := h
  rw [isClean_iff]
  refine ⟨?_, noEdgeSpace_trim p, fun hc => ?_⟩
  · intro e; simp [e] at hne
  · exact not_mem_of_mem_split ',' raw p hp (mem_of_mem_trim _ _ hc)

theorem parseSymptoms_join_of_clean (L : List Str) (h : ∀ t ∈ L, isClean t = true) :
    parseSymptoms (join [','] L) = L := by
  cases L with
  | nil => decide
  | cons x xs =>
    unfold parseSymptoms
    rw [split_join ',' (x :: xs) (by simp) (fun p hp => ((isClean_iff p).1 (h p hp)).2.2)]
    have hmap : (x :: xs).map trim = x :: xs := by
      conv_rhs => rw [← List.map_id (x :: xs)]
      exact List.map_congr_left fun p hp => trim_of_noEdgeSpace p ((isClean_iff p).1 (h p hp)).2.1
    rw [hmap, List.filter_eq_self]
    intro p hp
    have := ((isClean_iff p).1 (h p hp)).1
    cases p with
    | nil => exact absurd rfl this
    | cons c cs => rfl

theorem all_isWhiteSpace_false_of_clean (t : Str) (h : isClean t = true) :
    t.all isWhiteSpace = false := by
  rw [isClean_iff] at h
  obtain ⟨hne, hedge, -⟩ := h
  cases t with
  | nil => exact absurd rfl hne
  | cons c cs =>
    simp only [noEdgeSpace, List.head?_cons, Option.all_some, Bool.and_eq_true,
      Bool.not_eq_true'] at hedge
    simp [hedge.1]

theorem toNat_ofNat_of_lt (n : Nat) (h : n < 55296) : (Char.ofNat n).toNat = n := by
  have hv : n.isValidChar := Or.inl h
  simp [Char.ofNat, hv, Char.toNat, Char.ofNatAux, UInt32.toNat]

theorem lowerChar_lowerChar (c : Char) : lowerChar (lowerChar c) = lowerChar c := by
  unfold lowerChar
  split_ifs with h1 h2
  · exfalso
    rw [toNat_ofNat_of_lt _ (by omega)] at h2
    omega
  · rfl
  · rfl

theorem toLowerCase_toLowerCase (s : Str) : toLowerCase (toLowerCase s) = toLowerCase s := by
  simp [toLowerCase, Function.comp_def, lowerChar_lowerChar]

theorem toLowerCase_append (a b : Str) :
    toLowerCase (a ++ b) = toLowerCase a ++ toLowerCase b := by
  simp [toLowerCase]

theorem toLowerCase_join_space (L : List Str) :
    toLowerCase (join " ".toList L) = join " ".toList (L.map toLowerCase) := by
  induction L with
  | nil => rfl
  | cons x xs ih =>
    cases xs with
    | nil => rfl
    | cons y ys =>
      simp only [join, List.map_cons, toLowerCase_append] at ih ⊢
      rw [ih]
      rfl

theorem headFill_updateAnatomy (symptoms : List Str) (st : Page) :
    (updateAnatomy symptoms st).headFill =
      if headBase (toLowerCase (join " ".toList symptoms)) then
        if headEscalation (toLowerCase (join " ".toList symptoms)) then criticalFill
        else warningFill
      else neutralFill := by
  unfold updateAnatomy headBase headEscalation
  simp only
  split_ifs <;> rfl

theorem torsoFill_updateAnatomy (symptoms : List Str) (st : Page) :
    (updateAnatomy symptoms st).torsoFill =
      if torsoBase (toLowerCase (join " ".toList symptoms)) then
        if torsoEscalation (toLowerCase (join " ".toList symptoms)) then criticalFill
        else warningFill
      else neutralFill := by
  unfold updateAnatomy torsoBase torsoEscalation
  simp only
  split_ifs <;> rfl

theorem updateAnatomy_congr (L L' : List Str) (st : Page)
    (h : toLowerCase (join " ".toList L) = toLowerCase (join " ".toList L')) :
    updateAnatomy L st = updateAnatomy L' st := by
  unfold updateAnatomy
  rw [h]

/-! ## Lemmas on numbers -/

theorem denom_pos (x : Dbl) : 0 < x.denom := by
  unfold Dbl.denom
  split_ifs
  · exact Nat.one_pos
  · exact pow_pos (by decide) _

set_option maxRecDepth 1000000 in
/-- The doubles `0.1` and `1 / 3`, and how `0.1`, `1e21` and `-2.5` print. -/
theorem roundToDouble_samples :
    roundToDouble 1 10 = ⟨7205759403792794, -56⟩ ∧
    roundToDouble 1 3 = ⟨6004799503160661, -54⟩ ∧
    numberToString (roundToDouble 1 10) = "0.1".toList ∧
    numberToString (Dbl.ofInt (10 ^ 21)) = "1e+21".toList ∧
    numberToString (roundToDouble (-5) 2) = "-2.5".toList := by
  decide

set_option maxRecDepth 1000000 in
theorem opacityNear_range : (List.range 101).all opacityNear = true := by decide

theorem opacity_toRat_near (p : Int) (h0 : 0 ≤ p) (h1 : p ≤ 100) :
    |(opacity p).toRat - (1 / 2 + (p : ℚ) / 200)| ≤ 1 / 2 ^ 53 := by
  obtain ⟨n, rfl⟩ := Int.eq_ofNat_of_zero_le h0
  have hn : n ∈ List.range 101 := by
    rw [List.mem_range]; omega
  have h := List.all_eq_true.1 opacityNear_range n hn
  simp only [opacityNear, decide_eq_true_eq] at h
  have hd : (0 : ℚ) < ((opacity n).denom : ℚ) := by exact_mod_cast denom_pos _
  have key : (opacity n).toRat - (1 / 2 + ((n : ℤ) : ℚ) / 200) =
      (((200 * (opacity n).numer - (100 + (n : Int)) * (opacity n).denom : ℤ)) : ℚ) /
        (200 * ((opacity n).denom : ℚ)) := by
    unfold Dbl.toRat
    push_cast
    field_simp
    ring
  rw [key, abs_div, abs_of_pos (by positivity : (0 : ℚ) < 200 * ((opacity n).denom : ℚ)),
    div_le_div_iff₀ (by positivity) (by positivity), one_mul, ← Int.cast_abs, Int.abs_eq_natAbs]
  exact_mod_cast h

/-! ## Lemmas on the renderers -/

theorem appendCards_eq (items : List ResultItem) (st : Page) :
    appendCards items st =
      ({ st with resultsContainer :=
          st.resultsContainer ++ (cardsBeforeThrow items).map Node.card },
        if items.all (fun r => r.suggested_tests.isSome) then Completion.normal
        else Completion.thrown) := by
  induction items generalizing st with
  | nil => simp [appendCards, cardsBeforeThrow]
  | cons item rest ih =>
    cases hs : item.suggested_tests with
    | none => simp [appendCards, cardsBeforeThrow, renderCard, hs]
    | some tests => simp [appendCards, cardsBeforeThrow, renderCard, hs, ih]

theorem cardsBeforeThrow_of_all (items : List ResultItem)
    (h : ∀ r ∈ items, r.suggested_tests.isSome = true) :
    List.Forall₂ (fun r c => renderCard r = some c) items (cardsBeforeThrow items) := by
  induction items with
  | nil => exact List.Forall₂.nil
  | cons item rest ih =>
    have hi := h item (List.mem_cons_self _ _)
    obtain ⟨tests, ht⟩ := Option.isSome_iff_exists.1 hi
    have hr : ∃ c, renderCard item = some c := by simp [renderCard, ht]
    obtain ⟨c, hc⟩ := hr
    simp only [cardsBeforeThrow, hc]
    exact List.Forall₂.cons hc (ih fun r hr => h r (List.mem_cons_of_mem _ hr))

theorem renderResults_some (items : List ResultItem) (st : Page) :
    renderResults (some items) st =
      if items.all (fun r => r.suggested_tests.isSome) then
        ({ st with
            resultsContainer :=
              (if items.length = 0 then [Node.message] else []) ++
                (cardsBeforeThrow items).map Node.card
            resultsAreaHidden := false
            log := st.log ++ [Effect.scrollIntoView] }, Completion.normal)
      else
        ({ st with
            resultsContainer :=
              (if items.length = 0 then [Node.message] else []) ++
                (cardsBeforeThrow items).map Node.card }, Completion.thrown) := by
  unfold renderResults
  simp only [appendCards_eq]
  by_cases hall : items.all (fun r => r.suggested_tests.isSome) = true
  · by_cases hlen : items.length = 0 <;> simp [hall, hlen]
  · by_cases hlen : items.length = 0 <;> simp [hall, hlen]

theorem renderResults_none (st : Page) :
    renderResults none st = ({ st with resultsContainer := [] }, Completion.thrown) := rfl

theorem setItems_foldl (id : ListId) (items : List Str) (st : Page) :
    items.foldl (fun st i => st.setItems id (st.items id ++ [i])) st =
      st.setItems id (st.items id ++ items) := by
  induction items generalizing st with
  | nil => cases id <;> simp [Page.setItems, Page.items]
  | cons i rest ih =>
    rw [List.foldl_cons, ih]
    cases id <;> simp [Page.setItems, Page.items]

theorem fillList_eq (id : ListId) (items : Option (List Str)) (st : Page) :
    fillList id items st = st.setItems id (items.getD [placeholder]) := by
  unfold fillList
  cases items with
  | none => cases id <;> simp [Page.setItems]
  | some items =>
    simp only [setItems_foldl]
    cases id <;> simp [Page.setItems, Page.items]

theorem renderRoadmap_some (disease : Str) (roadmap : Roadmap) (st : Page) :
    renderRoadmap disease (some roadmap) st =
      ({ st with
          lockedDisease := disease
          roadmapMeds := roadmap.medication.getD [placeholder]
          roadmapLifestyle := roadmap.lifestyle.getD [placeholder]
          roadmapMonitoring := roadmap.monitoring.getD [placeholder]
          roadmapPatientSummary := st.pName ++ ", ".toList ++ st.pAge ++ "y".toList },
        Completion.normal) := by
  simp [renderRoadmap, fillList_eq, Page.setItems]

theorem updateAnatomy_eq (symptoms : List Str) (st : Page) :
    updateAnatomy symptoms st =
      { st with
        headFill := (updateAnatomy symptoms st).headFill
        torsoFill := (updateAnatomy symptoms st).torsoFill } := by
  unfold updateAnatomy
  simp only
  split_ifs <;> rfl

theorem updateSidePanel_eq (results : List ResultItem) (n : Nat) (st : Page) :
    updateSidePanel results n st =
      { st with
        dataPts := (updateSidePanel results n st).dataPts
        sysConf := (updateSidePanel results n st).sysConf
        sysConfColor := (updateSidePanel results n st).sysConfColor } := by
  cases results <;> rfl

/-- Whether the `try` block of the submit handler throws depends on the outcome
of the call only, not on the page or the symptoms. -/
theorem analysisTry_completion (outcome : AnalyzeOutcome) (symptoms symptoms' : List Str)
    (st st' : Page) :
    (analysisTry outcome symptoms st).2 = (analysisTry outcome symptoms' st').2 := by
  cases outcome with
  | fetchRejected => rfl
  | jsonRejected => rfl
  | nullBody => rfl
  | body pid results =>
    cases results with
    | none => rfl
    | some items =>
      by_cases hall : items.all (fun r => r.suggested_tests.isSome) = true <;>
        simp [analysisTry, renderResults_some, hall]

/-- The submit handler leaves both view containers as they are. -/
theorem submitAnalysis_views (outcome : AnalyzeOutcome) (st : Page) :
    (submitAnalysis outcome st).analysisViewHidden = st.analysisViewHidden ∧
    (submitAnalysis outcome st).roadmapViewHidden = st.roadmapViewHidden := by
  cases outcome with
  | fetchRejected => simp [submitAnalysis, analysisTry]
  | jsonRejected => simp [submitAnalysis, analysisTry]
  | nullBody => simp [submitAnalysis, analysisTry]
  | body pid results =>
    cases results with
    | none => simp [submitAnalysis, analysisTry, renderResults_none]
    | some items =>
      by_cases hall : items.all (fun r => r.suggested_tests.isSome) = true
      · simp only [submitAnalysis, analysisTry, renderResults_some, hall, if_true]
        rw [updateAnatomy_eq, updateSidePanel_eq]
        exact ⟨rfl, rfl⟩
      · simp [submitAnalysis, analysisTry, renderResults_some, hall]

/-- What `lockDisease` does to the view containers. -/
theorem lockDisease_views (d : Str) (outcome : RoadmapOutcome) (st : Page) :
    ((lockDisease d outcome st).analysisViewHidden, (lockDisease d outcome st).roadmapViewHidden) =
      if st.currentPatientId.truthy && !roadmapFails d outcome st then (true, false)
      else (st.analysisViewHidden, st.roadmapViewHidden) := by
  unfold lockDisease roadmapFails
  cases ht : st.currentPatientId.truthy with
  | false => simp
  | true =>
    cases outcome with
    | fetchRejected => simp [roadmapTry]
    | jsonRejected => simp [roadmapTry]
    | nullBody => simp [roadmapTry]
    | body roadmap =>
      cases roadmap with
      | none => simp [roadmapTry, renderRoadmap]
      | some r => simp [roadmapTry, renderRoadmap_some]

/-! ## Verified properties -/

/-- C4: the symptom parser returns the pieces of `raw` between its commas, each
trimmed, the empty ones dropped, in input order.  So every entry is non-empty,
is not made of white space only, has no white space at either end and no
comma; the parser is a total function; `"a, b ,, c "` gives `a`, `b`, `c` and
the empty string gives the empty list. -/
theorem parseSymptoms_spec (raw : Str) :
    (∃ pieces trimmed : List Str,
        pieces ≠ [] ∧ (∀ p ∈ pieces, ',' ∉ p) ∧ join [','] pieces = raw ∧
        List.Forall₂ IsTrimOf pieces trimmed ∧
        parseSymptoms raw = trimmed.filter (fun t => !t.isEmpty)) ∧
    (∀ pieces trimmed : List Str,
        pieces ≠ [] → (∀ p ∈ pieces, ',' ∉ p) → join [','] pieces = raw →
        List.Forall₂ IsTrimOf pieces trimmed →
        parseSymptoms raw = trimmed.filter (fun t => !t.isEmpty)) ∧
    (∀ t ∈ parseSymptoms raw,
        t ≠ [] ∧ t.all isWhiteSpace = false ∧ noEdgeSpace t = true ∧ ',' ∉ t) ∧
    parseSymptoms "a, b ,, c ".toList = ["a".toList, "b".toList, "c".toList] ∧
    parseSymptoms "".toList = [] := by
  refine ⟨⟨split ',' raw, (split ',' raw).map trim, split_ne_nil _ _,
    fun p hp => not_mem_of_mem_split _ _ p hp, join_split _ _, ?_, rfl⟩, ?_, ?_,
    by decide, by decide⟩
  · rw [List.forall₂_map_right_iff]
    exact List.forall₂_same.2 fun p _ => isTrimOf_trim p
  · intro pieces trimmed hne hcomma hjoin htrim
    unfold parseSymptoms
    rw [← hjoin, split_join ',' pieces hne hcomma, map_trim_of_forall₂ pieces trimmed htrim]
  · intro t ht
    have hc := isClean_of_mem_parseSymptoms raw t ht
    have h := (isClean_iff t).1 hc
    exact ⟨h.1, all_isWhiteSpace_false_of_clean t hc, h.2.1, h.2.2⟩

/-- C4 at `"a, b ,, c "`: the pieces `a`, ` b `, the empty piece and ` c `
trim to `a`, `b`, the empty string and `c`, and the parser returns `a`, `b`, `c`. -/
theorem parseSymptoms_spec_witness :
    parseSymptoms "a, b ,, c ".toList =
      ["a".toList, "b".toList, [], "c".toList].filter (fun t => !t.isEmpty) :=
  (parseSymptoms_spec "a, b ,, c ".toList).2.1
    ["a".toList, " b ".toList, [], " c ".toList] ["a".toList, "b".toList, [], "c".toList]
    (by decide) (by decide) (by decide)
    (.cons ⟨by decide, [], [], by decide, by decide, by decide⟩
      (.cons ⟨by decide, " ".toList, " ".toList, by decide, by decide, by decide⟩
        (.cons ⟨by decide, [], [], by decide, by decide, by decide⟩
          (.cons ⟨by decide, " ".toList, " ".toList, by decide, by decide, by decide⟩ .nil))))

/-- C10: the symptom parser is idempotent on clean input.  Parsing the tokens
of a list of clean tokens (non-empty, no white space at either end, no comma)
joined by `,` returns that list; hence parsing the joined result of a parse
returns the same result. -/
theorem parseSymptoms_idempotent :
    (∀ L : List Str, (∀ t ∈ L, isClean t = true) → parseSymptoms (join [','] L) = L) ∧
    (∀ raw : Str, parseSymptoms (join [','] (parseSymptoms raw)) = parseSymptoms raw) :=
  ⟨parseSymptoms_join_of_clean, fun raw =>
    parseSymptoms_join_of_clean _ fun t ht => isClean_of_mem_parseSymptoms raw t ht⟩

/-- C10 at a concrete list: the clean tokens `a`, `b c` parse back to themselves. -/
theorem parseSymptoms_idempotent_witness :
    (∀ t ∈ ["a".toList, "b c".toList], isClean t = true) ∧
    parseSymptoms (join [','] ["a".toList, "b c".toList]) = ["a".toList, "b c".toList] :=
  ⟨by decide, parseSymptoms_idempotent.1 ["a".toList, "b c".toList] (by decide)⟩

/-- C5: for each region on its own, with `s` the lowered joined string: the
fill is neutral when `s` has no base keyword, warning when it has one and the
escalation condition fails, critical when it has one and the escalation
condition holds.  In particular `bad headache` gives head warning and torso
neutral, `severe headache` head critical, `chest pain` torso critical,
`stomach ache` torso warning, and the empty list both neutral. -/
theorem updateAnatomy_fills (symptoms : List Str) (st : Page) :
    ((updateAnatomy symptoms st).headFill =
      if headBase (toLowerCase (join " ".toList symptoms)) then
        if headEscalation (toLowerCase (join " ".toList symptoms)) then criticalFill
        else warningFill
      else neutralFill) ∧
    ((updateAnatomy symptoms st).torsoFill =
      if torsoBase (toLowerCase (join " ".toList symptoms)) then
        if torsoEscalation (toLowerCase (join " ".toList symptoms)) then criticalFill
        else warningFill
      else neutralFill) ∧
    (updateAnatomy ["bad headache".toList] st).headFill = warningFill ∧
    (updateAnatomy ["bad headache".toList] st).torsoFill = neutralFill ∧
    (updateAnatomy ["severe headache".toList] st).headFill = criticalFill ∧
    (updateAnatomy ["chest pain".toList] st).torsoFill = criticalFill ∧
    (updateAnatomy ["stomach ache".toList] st).torsoFill = warningFill ∧
    (updateAnatomy [] st).headFill = neutralFill ∧
    (updateAnatomy [] st).torsoFill = neutralFill := by
  refine ⟨headFill_updateAnatomy _ _, torsoFill_updateAnatomy _ _, ?_, ?_, ?_, ?_, ?_, ?_, ?_⟩
  · rw [headFill_updateAnatomy]; decide
  · rw [torsoFill_updateAnatomy]; decide
  · rw [headFill_updateAnatomy]; decide
  · rw [torsoFill_updateAnatomy]; decide
  · rw [torsoFill_updateAnatomy]; decide
  · rw [headFill_updateAnatomy]; decide
  · rw [torsoFill_updateAnatomy]; decide

/-- C6, as stated, fails: for the one symptom `severe cough` the lowered joined
string contains `severe`, yet the head fill is neutral, not critical. -/
theorem headEscalation_alone_not_critical :
    headEscalation (toLowerCase (join " ".toList ["severe cough".toList])) = true ∧
    (updateAnatomy ["severe cough".toList] Page.blank).headFill = neutralFill ∧
    (updateAnatomy ["severe cough".toList] Page.blank).headFill ≠ criticalFill := by
  decide

/-- C6, amended: the head escalation check is nested in the base head check.
When the lowered joined string contains `severe` or `blindness`, the head fill
is critical if the string also contains one of `head`, `migraine`, `vision`,
and neutral otherwise. -/
theorem headFill_of_headEscalation (symptoms : List Str) (st : Page)
    (h : headEscalation (toLowerCase (join " ".toList symptoms)) = true) :
    (updateAnatomy symptoms st).headFill =
      if headBase (toLowerCase (join " ".toList symptoms)) then criticalFill
      else neutralFill := by
  rw [headFill_updateAnatomy, h]
  simp

/-- C6 amended, at `severe headache`: escalation and base both hold, the head is critical. -/
theorem headFill_of_headEscalation_witness :
    headEscalation (toLowerCase (join " ".toList ["severe headache".toList])) = true ∧
    (updateAnatomy ["severe headache".toList] Page.blank).headFill =
      if headBase (toLowerCase (join " ".toList ["severe headache".toList])) then criticalFill
      else neutralFill :=
  ⟨by decide, headFill_of_headEscalation ["severe headache".toList] Page.blank (by decide)⟩

/-- C7: the highlighter matches over the joined string and ignores letter
case.  Highlighting a list equals highlighting the one-entry list that holds
its entries joined by one space and lowered; two lists whose entries agree up
to letter case are highlighted alike; `severe`, `headache` as two entries give
head critical and `pain`, `chest` give torso critical. -/
theorem updateAnatomy_joined_lowered (st : Page) :
    (∀ L : List Str, updateAnatomy L st = updateAnatomy [toLowerCase (join " ".toList L)] st) ∧
    (∀ L L' : List Str, L.map toLowerCase = L'.map toLowerCase →
      updateAnatomy L st = updateAnatomy L' st) ∧
    (updateAnatomy ["severe".toList, "headache".toList] st).headFill = criticalFill ∧
    (updateAnatomy ["pain".toList, "chest".toList] st).torsoFill = criticalFill := by
  refine ⟨fun L => ?_, fun L L' h => ?_, ?_, ?_⟩
  · apply updateAnatomy_congr
    simp only [join, toLowerCase_toLowerCase]
  · apply updateAnatomy_congr
    rw [toLowerCase_join_space, toLowerCase_join_space, h]
  · rw [headFill_updateAnatomy]; decide
  · rw [torsoFill_updateAnatomy]; decide

/-- C7 at concrete lists: `Severe`, `HEADACHE` and `severe`, `headache` agree
up to letter case and are highlighted alike. -/
theorem updateAnatomy_joined_lowered_witness :
    ["Severe".toList, "HEADACHE".toList].map toLowerCase =
      ["severe".toList, "headache".toList].map toLowerCase ∧
    updateAnatomy ["Severe".toList, "HEADACHE".toList] Page.blank =
      updateAnatomy ["severe".toList, "headache".toList] Page.blank :=
  ⟨by decide, (updateAnatomy_joined_lowered Page.blank).2.1 _ _ (by decide)⟩

/-- C1: `lockDisease` called while `currentPatientId` is absent (`null`, as on
the initial page, or any other falsy value) is a no-op: the page, its effect
log included, is returned as it was, so no roadmap request is issued and the
view, the patient id and the rendered content are unchanged. -/
theorem lockDisease_without_patient (diseaseName : Str) (outcome : RoadmapOutcome) (st : Page)
    (h : st.currentPatientId.truthy = false) :
    lockDisease diseaseName outcome st = st := by
  simp [lockDisease, h]

/-- C1 on the initial page, whose patient id is `null`. -/
theorem lockDisease_without_patient_witness :
    Page.blank.currentPatientId = PatientId.null ∧
    lockDisease "Migraine".toList (.body (some medicationOnly)) Page.blank = Page.blank :=
  ⟨rfl, lockDisease_without_patient _ _ Page.blank rfl⟩

/-- C3: the view after one event.  `goBack` gives Analysis from any state and
changes nothing but the two view containers; `lockDisease` gives Roadmap when
the patient id is present and the roadmap call succeeds, and otherwise (id
absent, or call failed) leaves the view as it was; the submit handler leaves
the view as it was whatever the outcome of the analyze call. -/
theorem view_step (e : Event) (st : Page) :
    (view (step e st) =
      match e with
      | .back => some View.Analysis
      | .select diseaseName outcome =>
        if st.currentPatientId.truthy && !roadmapFails diseaseName outcome st
        then some View.Roadmap else view st
      | .submit _ => view st) ∧
    (goBack st).currentPatientId = st.currentPatientId ∧
    (goBack st).rendered = st.rendered ∧
    (goBack st).log = st.log ∧
    view janeAnalysed = some View.Analysis ∧
    view (step (.select "Migraine".toList (.body (some medicationOnly))) janeAnalysed) =
      some View.Roadmap ∧
    view (step .back
        (step (.select "Migraine".toList (.body (some medicationOnly))) janeAnalysed)) =
      some View.Analysis := by
  refine ⟨?_, rfl, rfl, rfl, by decide, by decide, by decide⟩
  cases e with
  | back => rfl
  | submit outcome =>
    simp only [step, view]
    rw [(submitAnalysis_views outcome st).1, (submitAnalysis_views outcome st).2]
  | select d outcome =>
    have h := lockDisease_views d outcome st
    simp only [step, view]
    by_cases hc : (st.currentPatientId.truthy && !roadmapFails d outcome st) = true
    · rw [if_pos hc] at h
      rw [if_pos hc, (Prod.mk.inj h).1, (Prod.mk.inj h).2]
    · rw [if_neg hc] at h
      rw [if_neg hc, (Prod.mk.inj h).1, (Prod.mk.inj h).2]

/-- C2, as stated, fails: after Jane's analysis (patient `p1`, one card) a
second analyze call whose body parses to an object without `patient_id` and
`results` fails, yet the patient id is overwritten with `undefined` and the
results container is emptied. -/
theorem submitAnalysis_failure_not_atomic :
    analysisFails (.body .undefined none) janeAnalysed = true ∧
    janeAnalysed.currentPatientId = PatientId.str "p1".toList ∧
    (submitAnalysis (.body .undefined none) janeAnalysed).currentPatientId = PatientId.undefined ∧
    janeAnalysed.resultsContainer.length = 1 ∧
    (submitAnalysis (.body .undefined none) janeAnalysed).resultsContainer = [] := by
  decide

/-- C2, amended: an analyze call that fails before a response body is in hand
(`fetch` rejects, the body does not parse, or it parses to `null`) leaves the
patient id and all rendered content as they were; every failing analyze call,
also one whose response makes rendering throw, raises the failure notice and
leaves the side panel, the anatomy fills, the roadmap content and both view
containers as they were. -/
theorem submitAnalysis_failure (outcome : AnalyzeOutcome) (st : Page)
    (h : analysisFails outcome st = true) :
    ((outcome = .fetchRejected ∨ outcome = .jsonRejected ∨ outcome = .nullBody) →
      (submitAnalysis outcome st).currentPatientId = st.currentPatientId ∧
      (submitAnalysis outcome st).rendered = st.rendered) ∧
    (submitAnalysis outcome st).log.getLast? =
      some (Effect.alert "An error occurred during analysis.".toList) ∧
    (submitAnalysis outcome st).dataPts = st.dataPts ∧
    (submitAnalysis outcome st).sysConf = st.sysConf ∧
    (submitAnalysis outcome st).sysConfColor = st.sysConfColor ∧
    (submitAnalysis outcome st).headFill = st.headFill ∧
    (submitAnalysis outcome st).torsoFill = st.torsoFill ∧
    (submitAnalysis outcome st).lockedDisease = st.lockedDisease ∧
    (submitAnalysis outcome st).roadmapMeds = st.roadmapMeds ∧
    (submitAnalysis outcome st).roadmapLifestyle = st.roadmapLifestyle ∧
    (submitAnalysis outcome st).roadmapMonitoring = st.roadmapMonitoring ∧
    (submitAnalysis outcome st).roadmapPatientSummary = st.roadmapPatientSummary ∧
    (submitAnalysis outcome st).analysisViewHidden = st.analysisViewHidden ∧
    (submitAnalysis outcome st).roadmapViewHidden = st.roadmapViewHidden := by
  cases outcome with
  | fetchRejected => simp [submitAnalysis, analysisTry, Page.rendered]
  | jsonRejected => simp [submitAnalysis, analysisTry, Page.rendered]
  | nullBody => simp [submitAnalysis, analysisTry, Page.rendered]
  | body pid results =>
    cases results with
    | none => simp [submitAnalysis, analysisTry, renderResults_none]
    | some items =>
      by_cases hall : items.all (fun r => r.suggested_tests.isSome) = true
      · simp [analysisFails, analysisTry, renderResults_some, hall] at h
      · simp [submitAnalysis, analysisTry, renderResults_some, hall]

/-- C2 amended, at a rejected `fetch` after Jane's analysis: the call fails and
patient id and rendered content stay. -/
theorem submitAnalysis_failure_witness :
    analysisFails .fetchRejected janeAnalysed = true ∧
    (submitAnalysis .fetchRejected janeAnalysed).currentPatientId =
      janeAnalysed.currentPatientId ∧
    (submitAnalysis .fetchRejected janeAnalysed).rendered = janeAnalysed.rendered :=
  ⟨by decide, (submitAnalysis_failure .fetchRejected janeAnalysed (by decide)).1 (Or.inl rfl)⟩

set_option maxRecDepth 1000000 in
/-- C8, as stated, fails: for the one result Flu at 14 % the opacity written
into the card is `0.5700000000000001`; the number computed is neither the
double `0.57` nor equal to `0.5 + 14 / 200`. -/
theorem renderResults_opacity_inexact :
    (∀ r ∈ [flu], r.suggested_tests.isSome = true) ∧
    (renderResults (some [flu]) Page.blank).1.resultsContainer =
      [Node.card (template "Flu".toList "0.5700000000000001".toList "14".toList
        "Fever and cough".toList "PCR".toList "Flu".toList)] ∧
    opacity 14 ≠ roundToDouble 57 100 ∧
    (opacity 14).toRat ≠ 1 / 2 + 14 / 200 := by
  refine ⟨by decide, by decide, by decide, ?_⟩
  have h : opacity 14 = ⟨5134103575202366, -53⟩ := by decide
  rw [h]
  norm_num [Dbl.toRat, Dbl.numer, Dbl.denom, Int.toNat]

set_option maxRecDepth 1000000 in
/-- C8, amended: for a results list whose entries all carry their suggested
tests, `renderResults` completes and replaces whatever the container held by
one card per result, in input order, preceded by the "No specific conditions
matched" message exactly when the list is empty.  The markup of card `i` is
the template of lines 69-83 with, inserted as they are, the name of result
`i`, the opacity, the probability, the explanation, the tests joined by `, `
and the name again.  The opacity is the double `0.5 + probability / 200`
printed as its shortest decimal: `0.5` for 0, `1` for 100, `0.86` for 72; for
a probability from 0 to 100 it is within `2 ^ -53` of the exact value. -/
theorem renderResults_markup (results : List ResultItem) (st : Page)
    (h : ∀ r ∈ results, r.suggested_tests.isSome = true) :
    (renderResults (some results) st).2 = Completion.normal ∧
    (∃ cards : List Str,
      List.Forall₂
        (fun r c => ∃ tests, r.suggested_tests = some tests ∧
          c = template r.name (numberToString (opacity r.probability))
                (numberToString (Dbl.ofInt r.probability)) r.explanation
                (join ", ".toList tests) r.name)
        results cards ∧
      (renderResults (some results) st).1.resultsContainer =
        (if results = [] then [Node.message] else []) ++ cards.map Node.card) ∧
    numberToString (opacity 0) = "0.5".toList ∧
    numberToString (opacity 100) = "1".toList ∧
    numberToString (opacity 72) = "0.86".toList ∧
    (∀ p : Int, 0 ≤ p → p ≤ 100 →
      |(opacity p).toRat - (1 / 2 + (p : ℚ) / 200)| ≤ 1 / 2 ^ 53) := by
  have hall : results.all (fun r => r.suggested_tests.isSome) = true :=
    List.all_eq_true.2 h
  refine ⟨by simp [renderResults_some, hall], ⟨cardsBeforeThrow results, ?_, ?_⟩,
    by decide, by decide, by decide, opacity_toRat_near⟩
  · refine (cardsBeforeThrow_of_all results h).imp ?_
    intro r c hc
    cases hs : r.suggested_tests with
    | none => simp [renderCard, hs] at hc
    | some tests =>
      refine ⟨tests, rfl, ?_⟩
      simp only [renderCard, hs, Option.some.injEq] at hc
      exact hc.symm
  · cases results <;> simp [renderResults_some, hall]

set_option maxRecDepth 1000000 in
/-- C8 amended, at the one-entry list holding Migraine at 72 %. -/
theorem renderResults_markup_witness :
    (∀ r ∈ [migraine], r.suggested_tests.isSome = true) ∧
    (renderResults (some [migraine]) janePage).2 = Completion.normal :=
  ⟨by decide, (renderResults_markup [migraine] janePage (by decide)).1⟩

/-- C9: for every roadmap, `renderRoadmap` completes and each of the three
lists, whatever it held and whatever the other two categories are, holds the
single placeholder item when its category is absent and exactly the items of
its category, in order, when it is present.  With medication absent and the
other two present only the medication list holds the placeholder. -/
theorem renderRoadmap_lists (disease : Str) (roadmap : Roadmap) (st : Page) :
    (renderRoadmap disease (some roadmap) st).2 = Completion.normal ∧
    (renderRoadmap disease (some roadmap) st).1.roadmapMeds =
      (match roadmap.medication with
        | none => [placeholder]
        | some items => items) ∧
    (renderRoadmap disease (some roadmap) st).1.roadmapLifestyle =
      (match roadmap.lifestyle with
        | none => [placeholder]
        | some items => items) ∧
    (renderRoadmap disease (some roadmap) st).1.roadmapMonitoring =
      (match roadmap.monitoring with
        | none => [placeholder]
        | some items => items) ∧
    (∀ l m : List Str,
      (renderRoadmap disease (some { medication := none, lifestyle := some l, monitoring := some m })
          st).1.roadmapMeds = [placeholder] ∧
      (renderRoadmap disease (some { medication := none, lifestyle := some l, monitoring := some m })
          st).1.roadmapLifestyle = l ∧
      (renderRoadmap disease (some { medication := none, lifestyle := some l, monitoring := some m })
          st).1.roadmapMonitoring = m) := by
  refine ⟨by rw [renderRoadmap_some], ?_, ?_, ?_, fun l m => by simp [renderRoadmap_some]⟩
  · rw [renderRoadmap_some]; cases roadmap.medication <;> rfl
  · rw [renderRoadmap_some]; cases roadmap.lifestyle <;> rfl
  · rw [renderRoadmap_some]; cases roadmap.monitoring <;> rfl

end Script
